import Mathlib

/-!
# Verification of the CourtScrapper attorney-session workflow

A shallow embedding of the core logic of the CourtScrapper repository
(`scraper.py`, `captcha_handler.py`, `case_data_extractor.py`,
`scraper_pool.py`, `result_exporter.py`).  Browser pages, the captcha
service and the DOM are modelled as oracle environments; the Python
control flow that consumes them is translated function by function.
Strings are modelled as lists of characters (`Str`), which matches the
ASCII data the scraper manipulates.
-/

/-- Python `str` values are modelled as lists of characters. -/
abbrev Str := List Char

/-- Whitespace characters recognised by Python's `str.strip` on the
ASCII fragment relevant here. -/
def isPySpace (c : Char) : Bool :=
  c = ' ' || c = '\t' || c = '\n' || c = '\x0d'

/-- Model of Python `str.strip()`: drop leading and trailing whitespace. -/
def pyStrip (s : Str) : Str :=
  ((s.dropWhile isPySpace).reverse.dropWhile isPySpace).reverse

/-- ASCII lower-casing of a single character (Python `str.lower` on ASCII). -/
def asciiLower (c : Char) : Char :=
  if 'A' ≤ c ∧ c ≤ 'Z' then Char.ofNat (c.toNat + 32) else c

/-- ASCII upper-casing of a single character (Python `str.upper` on ASCII). -/
def asciiUpper (c : Char) : Char :=
  if 'a' ≤ c ∧ c ≤ 'z' then Char.ofNat (c.toNat - 32) else c

/-- Model of Python `str.lower()`. -/
def pyLower (s : Str) : Str := s.map asciiLower

/-- Model of Python `str.upper()`. -/
def pyUpper (s : Str) : Str := s.map asciiUpper

/-- Model of Python `str.startswith(pat)`: `strStartsWith pat s` is true
when `pat` is an initial segment of `s`. -/
def strStartsWith : Str → Str → Bool
  | [], _ => true
  | _ :: _, [] => false
  | a :: as, b :: bs => a = b && strStartsWith as bs

/-- Model of Python's substring test `pat in s`. -/
def strHasSub (pat : Str) : Str → Bool
  | [] => pat.isEmpty
  | s@(_ :: rest) => strStartsWith pat s || strHasSub pat rest

/-- Numeric value of a digit string (Python `int` on an all-digit string). -/
def strToNat (s : Str) : Nat :=
  s.foldl (fun n c => n * 10 + (c.toNat - '0'.toNat)) 0

/-- Split a character list on a separator character, like Python
`str.split(sep)`: always returns at least one (possibly empty) group. -/
def splitOnCh (c : Char) : List Char → List (List Char)
  | [] => [[]]
  | a :: as =>
    if a = c then [] :: splitOnCh c as
    else
      match splitOnCh c as with
      | [] => [[a]]
      | g :: gs => (a :: g) :: gs

/-- Join groups back with the separator (inverse of `splitOnCh`). -/
def joinCh (c : Char) : List (List Char) → List Char
  | [] => []
  | [g] => g
  | g :: gs => g ++ c :: joinCh c gs

theorem splitOnCh_ne_nil (c : Char) (l : List Char) : splitOnCh c l ≠ [] := by
  induction l with
  | nil => simp [splitOnCh]
  | cons a as ih =>
    simp only [splitOnCh]
    split
    · simp
    · cases h : splitOnCh c as with
      | nil => simp
      | cons g gs => simp

theorem joinCh_splitOnCh (c : Char) (l : List Char) :
    joinCh c (splitOnCh c l) = l := by
  induction l with
  | nil => simp [splitOnCh, joinCh]
  | cons a as ih =>
    simp only [splitOnCh]
    split
    · rename_i hac
      cases h : splitOnCh c as with
      | nil => exact absurd h (splitOnCh_ne_nil c as)
      | cons g gs =>
        rw [h] at ih
        simp only [joinCh]
        rw [hac, ih]
        rfl
    · cases h : splitOnCh c as with
      | nil => exact absurd h (splitOnCh_ne_nil c as)
      | cons g gs =>
        rw [h] at ih
        cases gs with
        | nil => simp only [joinCh] at ih ⊢; rw [ih]
        | cons g' gs' => simp only [joinCh] at ih ⊢; rw [List.cons_append, ih]

/-- If the separator does not occur in the list, splitting yields one group. -/
theorem splitOnCh_of_not_mem {c : Char} {l : List Char} (h : c ∉ l) :
    splitOnCh c l = [l] := by
  induction l with
  | nil => simp [splitOnCh]
  | cons a as ih =>
    simp only [List.mem_cons, not_or] at h
    simp only [splitOnCh]
    rw [if_neg (fun hc => h.1 hc.symm), ih h.2]

/-- Split into exactly three groups, or fail. -/
def split3 (c : Char) (l : Str) : Option (Str × Str × Str) :=
  match splitOnCh c l with
  | [a, b, d] => some (a, b, d)
  | _ => none

theorem split3_eq {c : Char} {l a b d : Str} (h : split3 c l = some (a, b, d)) :
    l = a ++ c :: b ++ c :: d := by
  unfold split3 at h
  cases hs : splitOnCh c l with
  | nil => rw [hs] at h; simp at h
  | cons g gs =>
    rw [hs] at h
    match g, gs, h with
    | g, [g1, g2], h =>
      have := joinCh_splitOnCh c l
      rw [hs] at this
      simp only [joinCh] at this
      simp only [Option.some.injEq, Prod.mk.injEq] at h
      obtain ⟨h1, h2, h3⟩ := h
      subst h1; subst h2; subst h3
      rw [← this]; simp

theorem split3_of_not_mem {c : Char} {l : Str} (h : c ∉ l) :
    split3 c l = none := by
  unfold split3
  rw [splitOnCh_of_not_mem h]

/-! ## Data model: `CaseRecord` (spec §3, built in `case_data_extractor.extract_case_details`
and completed with attorney fields in `DallasCountyScraper.process_case_details`). -/

/-- One scraped case, as the dict built by `extract_case_details` plus the
three attorney fields added by `process_case_details`. -/
structure CaseRecord where
  case_number : Str
  file_date : Str
  judicial_officer : Str
  case_status : Str
  case_type : Str
  charge_description : Str
  bond_amount : Str
  disposition : Str
  sentencing_info : Str
  attorney_name : Str
  attorney_first_name : Str
  attorney_last_name : Str
deriving DecidableEq, Repr

/-! ## Date parsing (`DallasCountyScraper.check_latest_file_date`, scraper.py 275-349)

The method parses the first results row's file-date text with
`datetime.strptime`, trying the format `%m/%d/%Y` first and then
`%Y-%m-%d`, `%m-%d-%Y`, `%d/%m/%Y`.  The models below reproduce CPython's
`_strptime` acceptance for those formats: `%m` matches `1..12` written
with one or two digits, `%d` matches `1..31` written with one or two
digits or as a space followed by a nonzero digit, `%Y` matches exactly
four digits, the separators are literal, the whole string must be
consumed, and the resulting triple must be a valid proleptic Gregorian
date with year at least 1 (`datetime` raises otherwise). -/

/-- CPython `_strptime` field `%m` (month). -/
def parseMonth (s : Str) : Option Nat :=
  if s ≠ [] ∧ s.length ≤ 2 ∧ s.all Char.isDigit ∧ 1 ≤ strToNat s ∧ strToNat s ≤ 12 then
    some (strToNat s)
  else none

/-- CPython `_strptime` field `%d` (day); besides one- or two-digit values
`1..31` the regex also accepts a space followed by a nonzero digit. -/
def parseDay (s : Str) : Option Nat :=
  if s.length = 2 ∧ s[0]? = some ' ' ∧ (s[1]?.getD '0').isDigit ∧ s[1]? ≠ some '0' then
    some ((s[1]?.getD '0').toNat - '0'.toNat)
  else if s ≠ [] ∧ s.length ≤ 2 ∧ s.all Char.isDigit ∧ 1 ≤ strToNat s ∧ strToNat s ≤ 31 then
    some (strToNat s)
  else none

/-- CPython `_strptime` field `%Y` (year): exactly four digits. -/
def parseYear4 (s : Str) : Option Nat :=
  if s.length = 4 ∧ s.all Char.isDigit then some (strToNat s) else none

/-- Gregorian leap-year rule (as used by Python `datetime`). -/
def isLeapYear (y : Nat) : Bool :=
  y % 4 = 0 && (y % 100 ≠ 0 || y % 400 = 0)

/-- Days in a month (Python `datetime` validation). -/
def daysInMonth (y m : Nat) : Nat :=
  if m = 2 then (if isLeapYear y then 29 else 28)
  else if m = 4 ∨ m = 6 ∨ m = 9 ∨ m = 11 then 30
  else 31

/-- `datetime.date` constructor validation: year at least `MINYEAR = 1`
and the day must exist in the month. -/
def validDate (y m d : Nat) : Bool :=
  1 ≤ y && d ≤ daysInMonth y m

/-- `datetime.strptime(s, fmt)` for a three-field format with a literal
separator, given the parsers of the three fields in order and a function
assembling `(year, month, day)` from the three parsed values. -/
def strptime3 (sep : Char) (p1 p2 p3 : Str → Option Nat)
    (mk : Nat → Nat → Nat → Nat × Nat × Nat) (s : Str) : Option (Nat × Nat × Nat) :=
  match split3 sep s with
  | none => none
  | some (a, b, c) =>
    match p1 a, p2 b, p3 c with
    | some v1, some v2, some v3 =>
      let ymd := mk v1 v2 v3
      if validDate ymd.1 ymd.2.1 ymd.2.2 then some ymd else none
    | _, _, _ => none

/-- `datetime.strptime(s, "%m/%d/%Y")`. -/
def strptimeMDYSlash (s : Str) : Option (Nat × Nat × Nat) :=
  strptime3 '/' parseMonth parseDay parseYear4 (fun m d y => (y, m, d)) s

/-- `datetime.strptime(s, "%Y-%m-%d")`. -/
def strptimeYMDDash (s : Str) : Option (Nat × Nat × Nat) :=
  strptime3 '-' parseYear4 parseMonth parseDay (fun y m d => (y, m, d)) s

/-- `datetime.strptime(s, "%m-%d-%Y")`. -/
def strptimeMDYDash (s : Str) : Option (Nat × Nat × Nat) :=
  strptime3 '-' parseMonth parseDay parseYear4 (fun m d y => (y, m, d)) s

/-- `datetime.strptime(s, "%d/%m/%Y")`. -/
def strptimeDMYSlash (s : Str) : Option (Nat × Nat × Nat) :=
  strptime3 '/' parseDay parseMonth parseYear4 (fun d m y => (y, m, d)) s

/-- The year obtained by `check_latest_file_date`'s parsing cascade
(scraper.py 313-345): strip the text, try `%m/%d/%Y`, then on failure try
`%Y-%m-%d`, `%m-%d-%Y`, `%d/%m/%Y` in order; `none` when every format fails. -/
def parsedFileYear (s : Str) : Option Nat :=
  let t := pyStrip s
  match strptimeMDYSlash t with
  | some ymd => some ymd.1
  | none =>
    match strptimeYMDDash t with
    | some ymd => some ymd.1
    | none =>
      match strptimeMDYDash t with
      | some ymd => some ymd.1
      | none =>
        match strptimeDMYSlash t with
        | some ymd => some ymd.1
        | none => none

/-- `DallasCountyScraper.check_latest_file_date` (scraper.py 275-349).
`dateText` is the text of the first row's file-date cell (`none` when no
selector matched or the text was empty).  Returns `true` (proceed) when the
date is missing or unparseable, otherwise compares the parsed year with
the configured minimum year. -/
def check_latest_file_date (dateText : Option Str) (minYear : Nat) : Bool :=
  match dateText with
  | none => true
  | some s =>
    match parsedFileYear s with
    | some y => decide (minYear ≤ y)
    | none => true

/-! ### Mutual consistency of the candidate date formats

The four `strptime` formats cannot disagree about the year of a given
string: the two slash formats read the year from the same third
component, the two dash formats are mutually exclusive (their first
component has length four, respectively at most two), and a string
accepted by a slash format contains no dash (and vice versa). -/

theorem parseMonth_length {a : Str} {v : Nat} (h : parseMonth a = some v) :
    a.length ≤ 2 := by
  unfold parseMonth at h
  split at h
  · rename_i hc; exact hc.2.1
  · simp at h

theorem parseYear4_length {a : Str} {v : Nat} (h : parseYear4 a = some v) :
    a.length = 4 := by
  unfold parseYear4 at h
  split at h
  · rename_i hc; exact hc.1
  · simp at h

theorem parseMonth_not_mem {x : Char} (hx : ¬ x.isDigit) {a : Str} {v : Nat}
    (h : parseMonth a = some v) : x ∉ a := by
  unfold parseMonth at h
  split at h
  · rename_i hc
    intro hmem
    exact hx (List.all_eq_true.mp hc.2.2.1 x hmem)
  · simp at h

theorem parseYear4_not_mem {x : Char} (hx : ¬ x.isDigit) {a : Str} {v : Nat}
    (h : parseYear4 a = some v) : x ∉ a := by
  unfold parseYear4 at h
  split at h
  · rename_i hc
    intro hmem
    exact hx (List.all_eq_true.mp hc.2 x hmem)
  · simp at h

theorem parseDay_not_mem {x : Char} (hx : ¬ x.isDigit) (hx' : x ≠ ' ')
    {a : Str} {v : Nat} (h : parseDay a = some v) : x ∉ a := by
  intro hmem
  unfold parseDay at h
  split at h
  · rename_i hc
    obtain ⟨hlen, h0, h1d, h10⟩ := hc
    obtain ⟨a0, a1, rfl⟩ := List.length_eq_two.mp hlen
    simp only [List.getElem?_cons_zero, Option.some.injEq] at h0
    simp only [List.getElem?_cons_succ, List.getElem?_cons_zero,
      Option.getD_some] at h1d
    simp only [List.mem_cons, List.not_mem_nil, or_false] at hmem
    rcases hmem with h1 | h2
    · exact hx' (h1.trans h0)
    · subst h2; exact hx h1d
  · split at h
    · rename_i hc
      exact hx (List.all_eq_true.mp hc.2.2.1 x hmem)
    · simp at h

theorem strptime3_inv {sep : Char} {p1 p2 p3 : Str → Option Nat}
    {mk : Nat → Nat → Nat → Nat × Nat × Nat} {s : Str} {ymd : Nat × Nat × Nat}
    (h : strptime3 sep p1 p2 p3 mk s = some ymd) :
    ∃ a b c v1 v2 v3, split3 sep s = some (a, b, c) ∧
      p1 a = some v1 ∧ p2 b = some v2 ∧ p3 c = some v3 ∧ mk v1 v2 v3 = ymd := by
  unfold strptime3 at h
  cases hs : split3 sep s with
  | none => rw [hs] at h; simp at h
  | some abc =>
    obtain ⟨a, b, c⟩ := abc
    rw [hs] at h
    dsimp only at h
    cases h1 : p1 a with
    | none => rw [h1] at h; simp at h
    | some v1 =>
      cases h2 : p2 b with
      | none => rw [h1, h2] at h; simp at h
      | some v2 =>
        cases h3 : p3 c with
        | none => rw [h1, h2, h3] at h; simp at h
        | some v3 =>
          rw [h1, h2, h3] at h
          simp only at h
          split at h
          · exact ⟨a, b, c, v1, v2, v3, rfl, h1, h2, h3, by
              simpa using h⟩
          · simp at h

theorem strptime3_not_mem {sep x : Char} {p1 p2 p3 : Str → Option Nat}
    {mk : Nat → Nat → Nat → Nat × Nat × Nat} {s : Str} {ymd : Nat × Nat × Nat}
    (h : strptime3 sep p1 p2 p3 mk s = some ymd)
    (h1 : ∀ a v, p1 a = some v → x ∉ a)
    (h2 : ∀ a v, p2 a = some v → x ∉ a)
    (h3 : ∀ a v, p3 a = some v → x ∉ a)
    (hx : x ≠ sep) : x ∉ s := by
  obtain ⟨a, b, c, v1, v2, v3, hs, ha, hb, hc, -⟩ := strptime3_inv h
  have := split3_eq hs
  subst this
  intro hmem
  simp only [List.mem_append, List.mem_cons] at hmem
  rcases hmem with (ha' | hsep | hb') | (hsep | hc')
  · exact h1 a v1 ha ha'
  · exact hx hsep
  · exact h2 b v2 hb hb'
  · exact hx hsep
  · exact h3 c v3 hc hc'

theorem dash_not_mem_of_slash {s : Str} {ymd : Nat × Nat × Nat}
    (h : strptimeMDYSlash s = some ymd ∨ strptimeDMYSlash s = some ymd) :
    '-' ∉ s := by
  have hd : ¬ Char.isDigit '-' := by decide
  have hs : ('-' : Char) ≠ ' ' := by decide
  have hsep : ('-' : Char) ≠ '/' := by decide
  rcases h with h | h
  · exact strptime3_not_mem h
      (fun a v ha => parseMonth_not_mem hd ha)
      (fun a v ha => parseDay_not_mem hd hs ha)
      (fun a v ha => parseYear4_not_mem hd ha) hsep
  · exact strptime3_not_mem h
      (fun a v ha => parseDay_not_mem hd hs ha)
      (fun a v ha => parseMonth_not_mem hd ha)
      (fun a v ha => parseYear4_not_mem hd ha) hsep

theorem slash_not_mem_of_dash {s : Str} {ymd : Nat × Nat × Nat}
    (h : strptimeYMDDash s = some ymd ∨ strptimeMDYDash s = some ymd) :
    '/' ∉ s := by
  have hd : ¬ Char.isDigit '/' := by decide
  have hs : ('/' : Char) ≠ ' ' := by decide
  have hsep : ('/' : Char) ≠ '-' := by decide
  rcases h with h | h
  · exact strptime3_not_mem h
      (fun a v ha => parseYear4_not_mem hd ha)
      (fun a v ha => parseMonth_not_mem hd ha)
      (fun a v ha => parseDay_not_mem hd hs ha) hsep
  · exact strptime3_not_mem h
      (fun a v ha => parseMonth_not_mem hd ha)
      (fun a v ha => parseDay_not_mem hd hs ha)
      (fun a v ha => parseYear4_not_mem hd ha) hsep

/-- The two dash formats can never both accept a string. -/
theorem dash_formats_exclusive {s : Str} {y1 y2 : Nat × Nat × Nat}
    (h1 : strptimeYMDDash s = some y1) (h2 : strptimeMDYDash s = some y2) :
    False := by
  obtain ⟨a, b, c, v1, v2, v3, hs1, hp1, -, -, -⟩ := strptime3_inv h1
  obtain ⟨a', b', c', w1, w2, w3, hs2, hq1, -, -, -⟩ := strptime3_inv h2
  rw [hs1] at hs2
  obtain ⟨rfl, rfl, rfl⟩ : a = a' ∧ b = b' ∧ c = c' := by
    simpa [Prod.ext_iff] using hs2
  have h4 := parseYear4_length hp1
  have h2' := parseMonth_length hq1
  omega

/-- The two slash formats agree on the year when they both accept. -/
theorem slash_formats_year {s : Str} {y1 y2 : Nat × Nat × Nat}
    (h1 : strptimeMDYSlash s = some y1) (h2 : strptimeDMYSlash s = some y2) :
    y1.1 = y2.1 := by
  obtain ⟨a, b, c, v1, v2, v3, hs1, -, -, hp3, hmk1⟩ := strptime3_inv h1
  obtain ⟨a', b', c', w1, w2, w3, hs2, -, -, hq3, hmk2⟩ := strptime3_inv h2
  rw [hs1] at hs2
  obtain ⟨rfl, rfl, rfl⟩ : a = a' ∧ b = b' ∧ c = c' := by
    simpa [Prod.ext_iff] using hs2
  rw [hp3] at hq3
  cases hq3
  rw [← hmk1, ← hmk2]

/-- The claim-level reading of "parses with any candidate format to year `y`":
some format in `check_latest_file_date`'s candidate list accepts the
stripped date text with year `y`. -/
def parsesToYear (s : Str) (y : Nat) : Prop :=
  (∃ m d, strptimeMDYSlash (pyStrip s) = some (y, m, d)) ∨
  (∃ m d, strptimeYMDDash (pyStrip s) = some (y, m, d)) ∨
  (∃ m d, strptimeMDYDash (pyStrip s) = some (y, m, d)) ∨
  (∃ m d, strptimeDMYSlash (pyStrip s) = some (y, m, d))

/-- The ordered parse cascade agrees with any individual candidate format on
the year: the formats are mutually consistent, so "parses with any candidate
format to year `y`" determines `parsedFileYear`. -/
theorem parsesToYear_parsedFileYear {s : Str} {y : Nat} (h : parsesToYear s y) :
    parsedFileYear s = some y := by
  unfold parsedFileYear
  dsimp only
  rcases h with ⟨m, d, h1⟩ | ⟨m, d, h1⟩ | ⟨m, d, h1⟩ | ⟨m, d, h1⟩
  · rw [h1]
  · have hsl : strptimeMDYSlash (pyStrip s) = none := by
      unfold strptimeMDYSlash strptime3
      rw [split3_of_not_mem (slash_not_mem_of_dash (Or.inl h1))]
    rw [hsl, h1]
  · have hsl : strptimeMDYSlash (pyStrip s) = none := by
      unfold strptimeMDYSlash strptime3
      rw [split3_of_not_mem (slash_not_mem_of_dash (Or.inr h1))]
    have hym : strptimeYMDDash (pyStrip s) = none := by
      cases hy : strptimeYMDDash (pyStrip s) with
      | none => rfl
      | some y' => exact absurd (dash_formats_exclusive hy h1) (by simp)
    rw [hsl, hym, h1]
  · have hda : '-' ∉ pyStrip s := dash_not_mem_of_slash (Or.inr h1)
    have hym : strptimeYMDDash (pyStrip s) = none := by
      unfold strptimeYMDDash strptime3
      rw [split3_of_not_mem hda]
    have hmd : strptimeMDYDash (pyStrip s) = none := by
      unfold strptimeMDYDash strptime3
      rw [split3_of_not_mem hda]
    cases hsl : strptimeMDYSlash (pyStrip s) with
    | none => simp only [hym, hmd, h1]
    | some y' =>
      have := slash_formats_year hsl h1
      simp only [Option.some.injEq]
      exact this

/-! ## Row processing with session recovery
(`DallasCountyScraper.process_felony_cases`, scraper.py 657-735, together
with `recover_session`, 739-808)

The results page is an oracle `rowss : Nat → List Row`: `rowss n` is the
row list returned by the `n`-th call of `get_case_type_rows` (the code
re-enumerates rows after every return to the list and after every
recovery, so the list may change between calls).  A `Row` carries what
the page would yield for that row: the text `get_case_number_from_row`
extracts (possibly empty), whether `check_for_charge_keyword` matches on
the case detail page, and the `CaseRecord` that `process_case_details`
would append (the extraction dict is always non-empty, so a record is
appended exactly when the keyword matches).

The failure schedule `sched` supplies one `RowEvent` per attempted
(non-skipped) row: `crash` is an exception in the loop body before any
side effect, `clickFail` is `click_case_link` returning `False`, and
`proceed navOk` is a fully handled case whose `navigate_back_to_search_results`
call returns `navOk`.  Recovery is modelled as succeeding (the claims
under study quantify over runs in which it does, and
`ENABLE_SESSION_RECOVERY` is `True` in config.py); an exhausted schedule
means no further induced failures (`proceed true`). -/

/-- One visible results row together with the page behaviour behind it. -/
structure Row where
  rowCaseNumber : Str
  keywordMatch : Bool
  record : CaseRecord
deriving DecidableEq, Repr

/-- Induced outcome of one attempted row. -/
inductive RowEvent where
  | crash
  | clickFail
  | proceed (navOk : Bool)
deriving DecidableEq, Repr

/-- Observable events of a run, with snapshots of `processed_case_numbers`:
`opened` is recorded when `click_case_link` is invoked for a row (snapshot
taken before the click), `harvested` when a `CaseRecord` has been appended
to `self.results` (snapshot taken at the moment
`navigate_back_to_search_results` is about to run). -/
inductive TraceEv where
  | skipped (cn : Str)
  | opened (cn : Str) (processedAtOpen : List Str)
  | harvested (record : CaseRecord) (processedAtNav : List Str)
deriving DecidableEq, Repr

/-- The mutable per-scraper state used by `process_felony_cases`:
`self.results`, `self.processed_case_numbers`, the loop index `i`, and a
counter of `get_case_type_rows` refreshes. -/
structure ProcState where
  results : List CaseRecord
  processed : List Str
  i : Nat
  refresh : Nat
deriving DecidableEq, Repr

/-- Initial state of one attorney's run. -/
def procInit : ProcState := ⟨[], [], 0, 0⟩

/-- `self.results` after `process_case_details` on this row (scraper.py
538-566): a record is appended iff the charge keyword matches. -/
def harvestResults (row : Row) (results : List CaseRecord) : List CaseRecord :=
  if row.keywordMatch then results ++ [row.record] else results

/-- `self.processed_case_numbers` after the `if case_number:` add at
scraper.py 688-689: only a non-empty row case number is recorded. -/
def harvestProcessed (row : Row) (processed : List Str) : List Str :=
  if row.rowCaseNumber = [] then processed else row.rowCaseNumber :: processed

/-- State after one fully attempted case: record appended (if keyword
matched), case number recorded, then either navigation back succeeded
(`i+1`, rows refreshed) or it failed and recovery re-entered the list from
the top (`i := 0`, rows refreshed) — scraper.py 684-714. -/
def afterCaseState (row : Row) (s : ProcState) (navOk : Bool) : ProcState :=
  { results := harvestResults row s.results
    processed := harvestProcessed row s.processed
    i := if navOk then s.i + 1 else 0
    refresh := s.refresh + 1 }

/-- `DallasCountyScraper.wait_for_search_results_page` (scraper.py 634-654):
the 'Party Search Results' heading is awaited with
`timeout = max_wait_seconds * 10` milliseconds.  `appearMs` is the time in
milliseconds at which the heading becomes present (`none` = never). -/
def wait_for_search_results_page (appearMs : Option Nat)
    (max_wait_seconds : Nat) : Bool :=
  let timeout_ms := max_wait_seconds * 10
  match appearMs with
  | some t => decide (t ≤ timeout_ms)
  | none => false

/-- The `while i < len(felony_rows)` loop of `process_felony_cases`
(scraper.py 657-735), driven by the failure schedule; `fuel` bounds the
number of iterations (the Python loop need not terminate when rows with
empty case numbers keep failing, so the model is evaluated to any finite
depth).  Returns the final state and the event trace. -/
def process_felony_cases (rowss : Nat → List Row) (sched : List RowEvent)
    (fuel : Nat) (s : ProcState) : ProcState × List TraceEv :=
  match fuel with
  | 0 => (s, [])
  | fuel + 1 =>
    let rows := rowss s.refresh
    if h : s.i < rows.length then
      let row := rows.get ⟨s.i, h⟩
      let cn := row.rowCaseNumber
      if cn ≠ [] ∧ cn ∈ s.processed then
        let r := process_felony_cases rowss sched fuel { s with i := s.i + 1 }
        (r.1, .skipped cn :: r.2)
      else
        let evs : RowEvent × List RowEvent :=
          match sched with
          | [] => (.proceed true, [])
          | e :: rest => (e, rest)
        match evs.1 with
        | .crash =>
          process_felony_cases rowss evs.2 fuel
            { s with i := 0, refresh := s.refresh + 1 }
        | .clickFail =>
          process_felony_cases rowss evs.2 fuel { s with i := s.i + 1 }
        | .proceed navOk =>
          let s1 := afterCaseState row s navOk
          let r := process_felony_cases rowss evs.2 fuel s1
          (r.1, .opened cn s.processed ::
            ((if row.keywordMatch then [TraceEv.harvested row.record s1.processed]
              else []) ++ r.2))
    else (s, [])

/-- Invariant carried by every reachable state: the collected records have
pairwise distinct case numbers, each of which is in the processed set. -/
def ProcInv (s : ProcState) : Prop :=
  (s.results.map CaseRecord.case_number).Nodup ∧
  ∀ r ∈ s.results, r.case_number ∈ s.processed

/-- Environment assumption of the amended idempotence claims: every row
the page ever shows carries a non-empty case number that coincides with
the case number extracted on its detail page. -/
def RowsOk (rowss : Nat → List Row) : Prop :=
  ∀ n, ∀ row ∈ rowss n,
    row.rowCaseNumber ≠ [] ∧ row.rowCaseNumber = row.record.case_number

theorem afterCase_inv {rowss : Nat → List Row} (H : RowsOk rowss) {n : Nat}
    {row : Row} (hrow : row ∈ rowss n) {s : ProcState} (hs : ProcInv s)
    (hnotskip : ¬(row.rowCaseNumber ≠ [] ∧ row.rowCaseNumber ∈ s.processed))
    (navOk : Bool) :
    ProcInv (afterCaseState row s navOk) ∧
      s.results <+: (afterCaseState row s navOk).results := by
  obtain ⟨hcn, hcneq⟩ := H n row hrow
  have hnotmem : row.rowCaseNumber ∉ s.processed := fun hm => hnotskip ⟨hcn, hm⟩
  have hproc : harvestProcessed row s.processed =
      row.rowCaseNumber :: s.processed := by
    unfold harvestProcessed
    rw [if_neg hcn]
  by_cases hk : row.keywordMatch
  · have hres : harvestResults row s.results = s.results ++ [row.record] := by
      unfold harvestResults
      rw [if_pos hk]
    have hrecnot : row.record.case_number ∉ s.results.map CaseRecord.case_number := by
      intro hm
      obtain ⟨r, hr, hr'⟩ := List.mem_map.mp hm
      exact hnotmem (hcneq ▸ hr' ▸ hs.2 r hr)
    refine ⟨⟨?_, ?_⟩, ?_⟩
    · show ((afterCaseState row s navOk).results.map CaseRecord.case_number).Nodup
      unfold afterCaseState
      rw [hres, List.map_append, List.nodup_append]
      refine ⟨hs.1, by simp, ?_⟩
      intro a ha hb
      simp only [List.map_cons, List.map_nil, List.mem_singleton] at hb
      exact hrecnot (hb ▸ ha)
    · intro r hr
      unfold afterCaseState at hr ⊢
      rw [hres] at hr
      simp only at hr ⊢
      rw [hproc]
      rcases List.mem_append.mp hr with hr | hr
      · exact List.mem_cons_of_mem _ (hs.2 r hr)
      · simp only [List.mem_singleton] at hr
        subst hr
        rw [← hcneq]
        exact List.mem_cons_self _ _
    · show s.results <+: (afterCaseState row s navOk).results
      unfold afterCaseState
      rw [hres]
      exact List.prefix_append _ _
  · have hres : harvestResults row s.results = s.results := by
      unfold harvestResults
      rw [if_neg hk]
    refine ⟨⟨?_, ?_⟩, ?_⟩
    · show ((afterCaseState row s navOk).results.map CaseRecord.case_number).Nodup
      unfold afterCaseState
      rw [hres]
      exact hs.1
    · intro r hr
      unfold afterCaseState at hr ⊢
      rw [hres] at hr
      simp only at hr ⊢
      rw [hproc]
      exact List.mem_cons_of_mem _ (hs.2 r hr)
    · show s.results <+: (afterCaseState row s navOk).results
      unfold afterCaseState
      rw [hres]

theorem process_felony_cases_inv {rowss : Nat → List Row} (H : RowsOk rowss) :
    ∀ (fuel : Nat) (sched : List RowEvent) (s : ProcState), ProcInv s →
      ProcInv (process_felony_cases rowss sched fuel s).1 ∧
        s.results <+: (process_felony_cases rowss sched fuel s).1.results := by
  intro fuel
  induction fuel with
  | zero =>
    intro sched s hs
    exact ⟨hs, List.prefix_refl _⟩
  | succ fuel ih =>
    intro sched s hs
    rw [process_felony_cases.eq_def]
    dsimp only
    by_cases h : s.i < (rowss s.refresh).length
    · rw [dif_pos h]
      set row := (rowss s.refresh).get ⟨s.i, h⟩ with hrowdef
      have hrow : row ∈ rowss s.refresh := by
        rw [hrowdef]; exact List.get_mem _ _ _
      by_cases hskip : row.rowCaseNumber ≠ [] ∧ row.rowCaseNumber ∈ s.processed
      · rw [if_pos hskip]
        exact ih sched { s with i := s.i + 1 } hs
      · rw [if_neg hskip]
        cases sched with
        | nil =>
          dsimp only
          have hstep := afterCase_inv H hrow hs hskip true
          have hrec := ih [] (afterCaseState row s true) hstep.1
          exact ⟨hrec.1, hstep.2.trans hrec.2⟩
        | cons e rest =>
          cases e with
          | crash =>
            dsimp only
            exact ih rest { s with i := 0, refresh := s.refresh + 1 } hs
          | clickFail =>
            dsimp only
            exact ih rest { s with i := s.i + 1 } hs
          | proceed navOk =>
            dsimp only
            have hstep := afterCase_inv H hrow hs hskip navOk
            have hrec := ih rest (afterCaseState row s navOk) hstep.1
            exact ⟨hrec.1, hstep.2.trans hrec.2⟩
    · rw [dif_neg h]
      exact ⟨hs, List.prefix_refl _⟩

/-- Per-event form of the ProcessedCaseSet invariant: any record appended
has its case number in the processed-set snapshot taken when
`navigate_back_to_search_results` is about to run. -/
def harvestedOkEv : TraceEv → Prop
  | .harvested rec procAtNav => rec.case_number ∈ procAtNav
  | _ => True

/-- Per-event form of the no-re-open guarantee: a row is only clicked when
its (non-empty) case number is not yet in the processed set. -/
def openedOkEv : TraceEv → Prop
  | .opened cn procAtOpen => cn ≠ [] → cn ∉ procAtOpen
  | _ => True

theorem process_felony_cases_trace_harvested {rowss : Nat → List Row}
    (H : RowsOk rowss) :
    ∀ (fuel : Nat) (sched : List RowEvent) (s : ProcState),
      ∀ ev ∈ (process_felony_cases rowss sched fuel s).2, harvestedOkEv ev := by
  intro fuel
  induction fuel with
  | zero =>
    intro sched s ev hev
    simp [process_felony_cases] at hev
  | succ fuel ih =>
    intro sched s ev hev
    rw [process_felony_cases.eq_def] at hev
    dsimp only at hev
    by_cases h : s.i < (rowss s.refresh).length
    · rw [dif_pos h] at hev
      set row := (rowss s.refresh).get ⟨s.i, h⟩ with hrowdef
      have hrow : row ∈ rowss s.refresh := by
        rw [hrowdef]; exact List.get_mem _ _ _
      obtain ⟨hcn, hcneq⟩ := H s.refresh row hrow
      by_cases hskip : row.rowCaseNumber ≠ [] ∧ row.rowCaseNumber ∈ s.processed
      · rw [if_pos hskip] at hev
        rcases List.mem_cons.mp hev with rfl | hev
        · trivial
        · exact ih sched { s with i := s.i + 1 } ev hev
      · rw [if_neg hskip] at hev
        have hharvest : ∀ (navOk : Bool) (sched' : List RowEvent),
            ev ∈ (TraceEv.opened row.rowCaseNumber s.processed ::
              ((if row.keywordMatch = true then
                  [TraceEv.harvested row.record (afterCaseState row s navOk).processed]
                else []) ++
                (process_felony_cases rowss sched'
                  fuel (afterCaseState row s navOk)).2)) →
            (∀ ev' ∈ (process_felony_cases rowss sched'
                fuel (afterCaseState row s navOk)).2, harvestedOkEv ev') →
            harvestedOkEv ev := by
          intro navOk sched' hmem hrest
          rcases List.mem_cons.mp hmem with rfl | hmem
          · trivial
          rcases List.mem_append.mp hmem with hmem | hmem
          · by_cases hk : row.keywordMatch
            · rw [if_pos hk] at hmem
              simp only [List.mem_singleton] at hmem
              subst hmem
              show row.record.case_number ∈ (afterCaseState row s navOk).processed
              unfold afterCaseState harvestProcessed
              rw [if_neg hcn, ← hcneq]
              exact List.mem_cons_self _ _
            · rw [if_neg (by simpa using hk)] at hmem
              simp at hmem
          · exact hrest ev hmem
        cases sched with
        | nil =>
          dsimp only at hev
          exact hharvest true [] hev
            (fun ev' hev' => ih [] (afterCaseState row s true) ev' hev')
        | cons e rest =>
          cases e with
          | crash =>
            dsimp only at hev
            exact ih rest { s with i := 0, refresh := s.refresh + 1 } ev hev
          | clickFail =>
            dsimp only at hev
            exact ih rest { s with i := s.i + 1 } ev hev
          | proceed navOk =>
            dsimp only at hev
            exact hharvest navOk rest hev
              (fun ev' hev' => ih rest (afterCaseState row s navOk) ev' hev')
    · rw [dif_neg h] at hev
      simp at hev

theorem process_felony_cases_trace_opened (rowss : Nat → List Row) :
    ∀ (fuel : Nat) (sched : List RowEvent) (s : ProcState),
      ∀ ev ∈ (process_felony_cases rowss sched fuel s).2, openedOkEv ev := by
  intro fuel
  induction fuel with
  | zero =>
    intro sched s ev hev
    simp [process_felony_cases] at hev
  | succ fuel ih =>
    intro sched s ev hev
    rw [process_felony_cases.eq_def] at hev
    dsimp only at hev
    by_cases h : s.i < (rowss s.refresh).length
    · rw [dif_pos h] at hev
      set row := (rowss s.refresh).get ⟨s.i, h⟩ with hrowdef
      by_cases hskip : row.rowCaseNumber ≠ [] ∧ row.rowCaseNumber ∈ s.processed
      · rw [if_pos hskip] at hev
        rcases List.mem_cons.mp hev with rfl | hev
        · trivial
        · exact ih sched { s with i := s.i + 1 } ev hev
      · rw [if_neg hskip] at hev
        have hopen : ∀ (navOk : Bool) (sched' : List RowEvent),
            ev ∈ (TraceEv.opened row.rowCaseNumber s.processed ::
              ((if row.keywordMatch = true then
                  [TraceEv.harvested row.record (afterCaseState row s navOk).processed]
                else []) ++
                (process_felony_cases rowss sched'
                  fuel (afterCaseState row s navOk)).2)) →
            (∀ ev' ∈ (process_felony_cases rowss sched'
                fuel (afterCaseState row s navOk)).2, openedOkEv ev') →
            openedOkEv ev := by
          intro navOk sched' hmem hrest
          rcases List.mem_cons.mp hmem with rfl | hmem
          · show row.rowCaseNumber ≠ [] → row.rowCaseNumber ∉ s.processed
            intro hne hmem'
            exact hskip ⟨hne, hmem'⟩
          rcases List.mem_append.mp hmem with hmem | hmem
          · by_cases hk : row.keywordMatch
            · rw [if_pos hk] at hmem
              simp only [List.mem_singleton] at hmem
              subst hmem
              trivial
            · rw [if_neg (by simpa using hk)] at hmem
              simp at hmem
          · exact hrest ev hmem
        cases sched with
        | nil =>
          dsimp only at hev
          exact hopen true [] hev
            (fun ev' hev' => ih [] (afterCaseState row s true) ev' hev')
        | cons e rest =>
          cases e with
          | crash =>
            dsimp only at hev
            exact ih rest { s with i := 0, refresh := s.refresh + 1 } ev hev
          | clickFail =>
            dsimp only at hev
            exact ih rest { s with i := s.i + 1 } ev hev
          | proceed navOk =>
            dsimp only at hev
            exact hopen navOk rest hev
              (fun ev' hev' => ih rest (afterCaseState row s navOk) ev' hev')
    · rw [dif_neg h] at hev
      simp at hev

/-! ## The per-attorney run (`DallasCountyScraper.run`, scraper.py 811-864)

`expand_advanced_options` and `select_attorney_name_from_dropdown`
failures only log and continue, so they do not appear as gates; the gates
that return `False` before the year check are navigation, filling the
name fields, captcha resolution and form submission. -/

/-- Outcome of `DallasCountyScraper.run` for one attorney. -/
inductive RunOutcome where
  | abortedBeforeResults
  | yearCutoff
  | completed (results : List CaseRecord)
deriving DecidableEq, Repr

/-- `self.results` at the end of the run: empty unless row processing ran. -/
def runResults : RunOutcome → List CaseRecord
  | .abortedBeforeResults => []
  | .yearCutoff => []
  | .completed rs => rs

/-- Environment of one attorney's `run`: gate outcomes, the first row's
file-date text, and the row-processing environment. -/
structure RunEnv where
  navOk : Bool
  fillOk : Bool
  captchaOk : Bool
  submitOk : Bool
  firstRowDate : Option Str
  rowss : Nat → List Row
  sched : List RowEvent
  fuel : Nat

/-- `DallasCountyScraper.run` (scraper.py 811-864). -/
def run (env : RunEnv) (minYear : Nat) : RunOutcome :=
  if ¬env.navOk then .abortedBeforeResults
  else if ¬env.fillOk then .abortedBeforeResults
  else if ¬env.captchaOk then .abortedBeforeResults
  else if ¬env.submitOk then .abortedBeforeResults
  else if ¬check_latest_file_date env.firstRowDate minYear then .yearCutoff
  else .completed (process_felony_cases env.rowss env.sched env.fuel procInit).1.results

/-- A sample record used in concrete runs. -/
def recA : CaseRecord :=
  { case_number := "C1".toList
    file_date := "1/2/2025".toList
    judicial_officer := "J".toList
    case_status := "OPEN".toList
    case_type := "FELONY".toList
    charge_description := "ASSAULT".toList
    bond_amount := "$100".toList
    disposition := "NA".toList
    sentencing_info := "NA".toList
    attorney_name := "JANE DOE".toList
    attorney_first_name := "JANE".toList
    attorney_last_name := "DOE".toList }

/-- A results row whose link text yields case number "C1", matching the
record extracted on its detail page. -/
def rowGood : Row := ⟨"C1".toList, true, recA⟩

/-- A results row for the same case whose link text could not be read:
`get_case_number_from_row` returned the empty string (scraper.py 486-499),
while detail-page extraction still finds case number "C1". -/
def rowNoCn : Row := ⟨[], true, recA⟩

/-- C1, claim as stated, is false on the code: with a row whose
`get_case_number_from_row` text is empty, an induced navigate-back failure
followed by successful recovery re-processes the case (it was never added
to `processed_case_numbers`, scraper.py 688-689), and the final aggregate
holds two `CaseRecord`s with case number "C1". -/
theorem session_recovery_duplicate_counterexample :
    (process_felony_cases (fun _ => [rowNoCn]) [RowEvent.proceed false] 3
        procInit).1.results = [recA, recA] ∧
    ¬ (((process_felony_cases (fun _ => [rowNoCn]) [RowEvent.proceed false] 3
        procInit).1.results.map CaseRecord.case_number).Nodup) := by
  constructor
  · decide
  · decide

/-- C1 (amended): provided every row the page shows carries a non-empty
row-level case number equal to the extracted record's case number, any
run of `process_felony_cases` — under any schedule of induced mid-row-list
failures with successful recovery — yields an aggregate with pairwise
distinct case numbers, and never discards records already collected: the
results of any intermediate state satisfying the invariant are a prefix
of the final results. -/
theorem session_recovery_idempotent (rowss : Nat → List Row)
    (sched : List RowEvent) (fuel : Nat) (H : RowsOk rowss) :
    (((process_felony_cases rowss sched fuel procInit).1.results.map
      CaseRecord.case_number).Nodup) ∧
    (∀ s, ProcInv s →
      s.results <+: (process_felony_cases rowss sched fuel s).1.results) := by
  constructor
  · exact (process_felony_cases_inv H fuel sched procInit
      ⟨by simp [procInit], by intro r hr; simp [procInit] at hr⟩).1.1
  · intro s hs
    exact (process_felony_cases_inv H fuel sched s hs).2

theorem session_recovery_idempotent_witness :
    (((process_felony_cases (fun _ => [rowGood]) [RowEvent.proceed false] 5
      procInit).1.results.map CaseRecord.case_number).Nodup) := by
  refine (session_recovery_idempotent (fun _ => [rowGood])
    [RowEvent.proceed false] 5 ?_).1
  intro n row hrow
  simp only [List.mem_singleton] at hrow
  subst hrow
  exact ⟨by decide, rfl⟩

/-- C2, claim as stated, is false on the code: the code adds the
row-level link text to `processed_case_numbers`, not the record's
`case_number` field; when the link text is empty nothing is added, so a
`CaseRecord` with non-empty case number "C1" has been produced while the
processed set is still empty at the moment the workflow navigates away,
and after recovery the same case is re-opened. -/
theorem processed_case_set_missing_counterexample :
    TraceEv.harvested recA [] ∈
      (process_felony_cases (fun _ => [rowNoCn]) [RowEvent.proceed false] 3
        procInit).2 ∧
    recA.case_number ≠ [] ∧ recA.case_number ∉ ([] : List Str) := by
  exact ⟨by decide, by decide, List.not_mem_nil _⟩

/-- C2 (amended): provided every row's link text is a non-empty case
number equal to the extracted record's `case_number`, every harvested
record's case number is in `processed_case_numbers` at the moment
`navigate_back_to_search_results` runs; and, unconditionally at the
row-number level, a row whose non-empty case number is already in the
processed set is never re-opened (no `opened` event for it), before or
after recovery. -/
theorem processed_case_set_invariant (rowss : Nat → List Row)
    (sched : List RowEvent) (fuel : Nat) (s : ProcState) :
    (RowsOk rowss →
      ∀ ev ∈ (process_felony_cases rowss sched fuel s).2, harvestedOkEv ev) ∧
    (∀ ev ∈ (process_felony_cases rowss sched fuel s).2, openedOkEv ev) := by
  constructor
  · intro H ev hev
    exact process_felony_cases_trace_harvested H fuel sched s ev hev
  · intro ev hev
    exact process_felony_cases_trace_opened rowss fuel sched s ev hev

theorem processed_case_set_invariant_witness :
    harvestedOkEv (TraceEv.harvested recA ["C1".toList]) ∧
    openedOkEv (TraceEv.opened "C1".toList []) := by
  have H : RowsOk (fun _ => [rowGood]) := by
    intro n row hrow
    simp only [List.mem_singleton] at hrow
    subst hrow
    exact ⟨by decide, rfl⟩
  have h := processed_case_set_invariant (fun _ => [rowGood])
    [RowEvent.proceed false] 5 procInit
  exact ⟨h.1 H (TraceEv.harvested recA ["C1".toList]) (by decide),
    h.2 (TraceEv.opened "C1".toList []) (by decide)⟩

/-- C5: with the four gates before the year check passing, if the first
row's file-date text parses under any candidate format to year `y`, then
row processing proceeds when `y` is at least the configured minimum and
the run ends as a year cutoff with zero records and no row processing when
`y` is below it; if the date is missing or no candidate format parses it,
the run proceeds to row processing. -/
theorem year_cutoff_branch (env : RunEnv) (minYear : Nat)
    (hnav : env.navOk = true) (hfill : env.fillOk = true)
    (hcap : env.captchaOk = true) (hsub : env.submitOk = true) :
    (∀ s y, env.firstRowDate = some s → parsesToYear s y → minYear ≤ y →
      run env minYear =
        .completed (process_felony_cases env.rowss env.sched env.fuel
          procInit).1.results) ∧
    (∀ s y, env.firstRowDate = some s → parsesToYear s y → y < minYear →
      run env minYear = .yearCutoff ∧ runResults (run env minYear) = []) ∧
    (env.firstRowDate = none →
      run env minYear =
        .completed (process_felony_cases env.rowss env.sched env.fuel
          procInit).1.results) ∧
    (∀ s, env.firstRowDate = some s → parsedFileYear s = none →
      run env minYear =
        .completed (process_felony_cases env.rowss env.sched env.fuel
          procInit).1.results) := by
  have hgate : ∀ o : RunOutcome,
      ((if ¬check_latest_file_date env.firstRowDate minYear then
          RunOutcome.yearCutoff
        else .completed (process_felony_cases env.rowss env.sched env.fuel
          procInit).1.results) = o) → run env minYear = o := by
    intro o ho
    unfold run
    rw [hnav, hfill, hcap, hsub]
    simpa using ho
  refine ⟨?_, ?_, ?_, ?_⟩
  · intro s y hdate hparse hy
    apply hgate
    rw [if_neg]
    rw [hdate]
    unfold check_latest_file_date
    dsimp only
    rw [parsesToYear_parsedFileYear hparse]
    simp [hy]
  · intro s y hdate hparse hy
    have hrun : run env minYear = .yearCutoff := by
      apply hgate
      rw [if_pos]
      rw [hdate]
      unfold check_latest_file_date
      dsimp only
      rw [parsesToYear_parsedFileYear hparse]
      simp
      omega
    exact ⟨hrun, by rw [hrun]; rfl⟩
  · intro hdate
    apply hgate
    rw [if_neg]
    rw [hdate]
    unfold check_latest_file_date
    simp
  · intro s hdate hparse
    apply hgate
    rw [if_neg]
    rw [hdate]
    unfold check_latest_file_date
    dsimp only
    rw [hparse]
    simp

/-- A run environment whose first results row is dated 1/2/2024. -/
def envC5 : RunEnv :=
  { navOk := true, fillOk := true, captchaOk := true, submitOk := true
    firstRowDate := some "1/2/2024".toList
    rowss := fun _ => [], sched := [], fuel := 0 }

theorem year_cutoff_branch_witness :
    run envC5 2025 = RunOutcome.yearCutoff ∧
      runResults (run envC5 2025) = [] := by
  refine (year_cutoff_branch envC5 2025 rfl rfl rfl rfl).2.1
    ("1/2/2024".toList) 2024 rfl ?_ (by omega)
  exact Or.inl ⟨1, 2, by decide⟩

/-- C10: the wait for the 'Party Search Results' heading is bounded by
`max_wait_seconds * 10` milliseconds (so 1200 ms — 1.2 seconds — for the
default argument 120, one hundredth of the intended seconds); when the
heading does not appear within that bound the function returns `false`,
and a failed navigate-back makes `process_felony_cases` restart from the
top of the refreshed row list (session recovery). -/
theorem wait_for_search_results_timeout :
    (∀ w t, wait_for_search_results_page (some t) w = decide (t ≤ w * 10)) ∧
    (∀ w, wait_for_search_results_page none w = false) ∧
    wait_for_search_results_page (some 1200) 120 = true ∧
    wait_for_search_results_page (some 1201) 120 = false ∧
    (∀ row s, (afterCaseState row s false).i = 0 ∧
      (afterCaseState row s false).refresh = s.refresh + 1) := by
  exact ⟨fun w t => rfl, fun w => rfl, by decide, by decide,
    fun row s => ⟨rfl, rfl⟩⟩

/-! ## Captcha resolution (`captcha_handler.py`)

The page and the 2captcha service are oracles: `manualSolvedAt` /
`fallbackSolvedAt` give the second at which a human completes the
challenge during a manual wait (`none` = never), `autoOk` whether
`solve_recaptcha_v2_with_2captcha` succeeds (its own polling loop is
bounded by 60 attempts of 5 s, i.e. 300 s), `balance` the 2captcha
account balance, and `svcRaises` an exception inside
`solve_captcha_with_service` (modelled as occurring before the balance
check).  Each invocation of an automated attempt or of
`solve_captcha_manually` is recorded as a `CapEvent`, with the timeout
passed to the manual poll loop. -/

/-- An attempt recorded during captcha resolution. -/
inductive CapEvent where
  | auto
  | manual (timeout : Option Nat)
deriving DecidableEq, Repr

/-- `solve_captcha_manually` (captcha_handler.py 62-83): polls until the
checkbox reports checked; with `timeout=None` it never returns unless the
human solves (`none` = the call never returns); with a numeric timeout it
returns `false` once the timeout elapses. -/
def solve_captcha_manually (solvedAt : Option Nat) (timeout : Option Nat) :
    Option Bool :=
  match timeout with
  | none =>
    match solvedAt with
    | some _ => some true
    | none => none
  | some T =>
    match solvedAt with
    | some t => some (decide (t ≤ T))
    | none => some false

/-- Oracle for one `solve_captcha_with_service` call. -/
structure CapSvcEnv where
  svcRaises : Bool
  balance : Option ℚ
  autoOk : Bool
  manualSolvedAt : Option Nat
deriving DecidableEq

/-- The `balance is not None and balance < 0.003` test
(captcha_handler.py 525). -/
def lowBalance (balance : Option ℚ) : Bool :=
  match balance with
  | some b => decide (b < 3 / 1000)
  | none => false

/-- `solve_captcha_with_service` (captcha_handler.py 507-556): returns
(result, new ManualCaptchaFlag, recorded attempts).  Every manual wait
issued here carries the 300-second timeout; the flag is set to `True` on
insufficient balance, on automated-solve failure, and on exception, and
is never cleared. -/
def solve_captcha_with_service (env : CapSvcEnv) (hasKey : Bool)
    (flag : Bool) : Bool × Bool × List CapEvent :=
  let manual300 := (solve_captcha_manually env.manualSolvedAt (some 300)).getD false
  if flag then (manual300, flag, [.manual (some 300)])
  else if env.svcRaises then (manual300, true, [.manual (some 300)])
  else if ¬hasKey then (manual300, flag, [.manual (some 300)])
  else if lowBalance env.balance then (manual300, true, [.manual (some 300)])
  else if env.autoOk then (true, flag, [.auto])
  else (manual300, true, [.auto, .manual (some 300)])

/-- Oracle for one `resolve_captcha` call. -/
structure ResolveEnv where
  captchaPresent : Bool
  svc : CapSvcEnv
  iframePresent : Bool
  checkboxVisible : Bool
  fallbackRaises : Bool
  fallbackSolvedAt : Option Nat
deriving DecidableEq

/-- The final manual fallback of `resolve_captcha` (captcha_handler.py
468-504): locate the reCAPTCHA iframe and checkbox, click it, then call
`solve_captcha_manually(page)` — with the default `timeout=None`, an
unbounded wait.  `evs` are the attempts already recorded. -/
def manual_fallback (env : ResolveEnv) (flag : Bool) (evs : List CapEvent) :
    Option Bool × Bool × List CapEvent :=
  if env.fallbackRaises then (some false, flag, evs)
  else if ¬env.iframePresent then (some false, flag, evs)
  else if ¬env.checkboxVisible then (some false, flag, evs)
  else
    match solve_captcha_manually env.fallbackSolvedAt none with
    | some r => (some r, flag, evs ++ [.manual none])
    | none => (none, flag, evs ++ [.manual none])

/-- `resolve_captcha` (captcha_handler.py 447-504): detect, try the
service when enabled and keyed, fall back to the unbounded manual path.
The result is `none` when the call never returns (unbounded wait on an
unsolved captcha). -/
def resolve_captcha (env : ResolveEnv) (useService hasKey : Bool)
    (flag : Bool) : Option Bool × Bool × List CapEvent :=
  if ¬env.captchaPresent then (some true, flag, [])
  else if useService ∧ hasKey then
    let r := solve_captcha_with_service env.svc hasKey flag
    if r.1 then (some true, r.2.1, r.2.2)
    else manual_fallback env r.2.1 r.2.2
  else manual_fallback env flag []

/-! ### ManualCaptchaFlag storage (captcha_handler.py 12-24)

`thread_local.use_manual_captcha_only` is one boolean per worker
*thread*.  `ThreadPoolExecutor` worker threads are reused across
submitted tasks (always so when there are more attorneys than the worker
cap), so consecutive attorneys' Workflows can run on the same thread and
read the same flag; the model makes the thread id explicit and runs tasks
of one thread sequentially (tasks on distinct threads touch disjoint
entries, so interleaving is irrelevant). -/

/-- Per-thread flag storage: `none` = attribute not yet initialised. -/
def ThreadStore : Type := Nat → Option Bool

/-- `get_manual_captcha_flag` (captcha_handler.py 17-20): initialises the
attribute to `False` when absent. -/
def get_manual_captcha_flag (store : ThreadStore) (t : Nat) : Bool :=
  (store t).getD false

/-- `set_manual_captcha_flag` (captcha_handler.py 23-24). -/
def set_manual_captcha_flag (store : ThreadStore) (t : Nat) (v : Bool) :
    ThreadStore :=
  fun t' => if t' = t then some v else store t'

/-- One `resolve_captcha` call made by code running on thread `t`. -/
def resolveOnThread (env : ResolveEnv) (useService hasKey : Bool)
    (store : ThreadStore) (t : Nat) : Option Bool × ThreadStore :=
  let r := resolve_captcha env useService hasKey (get_manual_captcha_flag store t)
  (r.1, set_manual_captcha_flag store t r.2.1)

/-- The captcha encounters of one attorney's Workflow, run on thread `t`. -/
def runWorkflowCaptchas (envs : List ResolveEnv) (useService hasKey : Bool)
    (store : ThreadStore) (t : Nat) : ThreadStore :=
  envs.foldl (fun st env => (resolveOnThread env useService hasKey st t).2) store

theorem svc_flag_true (env : CapSvcEnv) (k : Bool) :
    (solve_captcha_with_service env k true).2.1 = true := by
  simp [solve_captcha_with_service]

theorem manual_fallback_flag (env : ResolveEnv) (flag : Bool)
    (evs : List CapEvent) : (manual_fallback env flag evs).2.1 = flag := by
  unfold manual_fallback
  split
  · rfl
  · split
    · rfl
    · split
      · rfl
      · split <;> rfl

theorem resolve_captcha_flag_true (env : ResolveEnv) (u k : Bool) :
    (resolve_captcha env u k true).2.1 = true := by
  unfold resolve_captcha
  split
  · rfl
  · split
    · dsimp only
      split
      · exact svc_flag_true env.svc k
      · rw [manual_fallback_flag]
        exact svc_flag_true env.svc k
    · rw [manual_fallback_flag]

theorem svc_trace_bounded (env : CapSvcEnv) (k flag : Bool) :
    ∀ ev ∈ (solve_captcha_with_service env k flag).2.2,
      ∀ t, ev = CapEvent.manual t → t = some 300 := by
  intro ev hev t het
  unfold solve_captcha_with_service at hev
  dsimp only at hev
  split at hev
  · simp only [List.mem_singleton] at hev
    subst hev; cases het; rfl
  · split at hev
    · simp only [List.mem_singleton] at hev
      subst hev; cases het; rfl
    · split at hev
      · simp only [List.mem_singleton] at hev
        subst hev; cases het; rfl
      · split at hev
        · simp only [List.mem_singleton] at hev
          subst hev; cases het; rfl
        · split at hev
          · simp only [List.mem_singleton] at hev
            subst hev; simp at het
          · simp only [List.mem_cons, List.mem_singleton,
              List.not_mem_nil, or_false] at hev
            rcases hev with rfl | rfl
            · simp at het
            · cases het; rfl

theorem manual_fallback_dropLast (env : ResolveEnv) (flag : Bool)
    (evs : List CapEvent) (hP : ∀ ev ∈ evs, ev ≠ CapEvent.manual none) :
    ∀ ev ∈ (manual_fallback env flag evs).2.2.dropLast,
      ev ≠ CapEvent.manual none := by
  unfold manual_fallback
  split
  · intro ev hev
    exact hP ev (( List.dropLast_prefix _).subset hev)
  · split
    · intro ev hev
      exact hP ev (( List.dropLast_prefix _).subset hev)
    · split
      · intro ev hev
        exact hP ev (( List.dropLast_prefix _).subset hev)
      · split
        · intro ev hev
          rw [List.dropLast_concat] at hev
          exact hP ev hev
        · intro ev hev
          rw [List.dropLast_concat] at hev
          exact hP ev hev

/-- The property asserted by the timeout-asymmetry claim for a recorded
trace: every manual wait that comes after an automated attempt carries
the 300-second timeout. -/
def manualBoundedAfterAuto (trace : List CapEvent) : Prop :=
  ∀ i j, i < j → trace.get? i = some CapEvent.auto →
    ∀ t, trace.get? j = some (CapEvent.manual t) → t = some 300

/-- A service environment in which the automated 2captcha attempt fails
(balance lookup returns `None`, the solve fails, no exception) and the
bounded manual wait also times out unsolved. -/
def svcEnvFail : CapSvcEnv :=
  { svcRaises := false, balance := none, autoOk := false,
    manualSolvedAt := none }

/-- A resolve environment around `svcEnvFail` whose final fallback is
eventually solved by the human (after 60 s). -/
def envAutoFail : ResolveEnv :=
  { captchaPresent := true, svc := svcEnvFail, iframePresent := true,
    checkboxVisible := true, fallbackRaises := false,
    fallbackSolvedAt := some 60 }

/-- C4, claim as stated, is false on the code: when the automated attempt
and the service's bounded manual wait both fail, `resolve_captcha` falls
through to its final fallback, which calls `solve_captcha_manually(page)`
with the default `timeout=None` (captcha_handler.py 497) — an unbounded
manual wait occurring after an automated attempt has been tried. -/
theorem manual_timeout_asymmetry_counterexample :
    (resolve_captcha envAutoFail true true false).2.2 =
      [CapEvent.auto, CapEvent.manual (some 300), CapEvent.manual none] ∧
    ¬ manualBoundedAfterAuto
      [CapEvent.auto, CapEvent.manual (some 300), CapEvent.manual none] := by
  constructor
  · decide
  · intro h
    have := h 0 2 (by omega) rfl none rfl
    simp at this

/-- C4 (amended): every manual wait issued from inside
`solve_captcha_with_service` is bounded by 300 seconds and terminates;
the final manual fallback of `resolve_captcha` is always unbounded — it
can run after automated attempts as well — and it is the only unbounded
wait: an unbounded manual event can only be the last event of a
resolution trace, and with a numeric timeout `solve_captcha_manually`
always returns, while with `timeout=None` and no human it never does. -/
theorem manual_timeout_asymmetry (env : ResolveEnv) (u k flag : Bool) :
    (∀ ev ∈ (solve_captcha_with_service env.svc k flag).2.2,
      ∀ t, ev = CapEvent.manual t → t = some 300) ∧
    (∀ solvedAt, solve_captcha_manually solvedAt (some 300) ≠ none) ∧
    (solve_captcha_manually none none = none) ∧
    (∀ ev ∈ (resolve_captcha env u k flag).2.2.dropLast,
      ev ≠ CapEvent.manual none) := by
  refine ⟨svc_trace_bounded env.svc k flag, ?_, rfl, ?_⟩
  · intro solvedAt
    cases solvedAt <;> simp [solve_captcha_manually]
  · have hsvc : ∀ ev ∈ (solve_captcha_with_service env.svc k flag).2.2,
        ev ≠ CapEvent.manual none := by
      intro ev hev heq
      subst heq
      have := svc_trace_bounded env.svc k flag _ hev none rfl
      simp at this
    unfold resolve_captcha
    split
    · simp
    · split
      · dsimp only
        split
        · intro ev hev
          exact hsvc ev (( List.dropLast_prefix _).subset hev)
        · exact manual_fallback_dropLast env _ _ hsvc
      · exact manual_fallback_dropLast env flag [] (by simp)

theorem manual_timeout_asymmetry_witness :
    CapEvent.auto ≠ CapEvent.manual none ∧
    solve_captcha_manually none (some 300) ≠ none := by
  constructor
  · exact (manual_timeout_asymmetry envAutoFail true true false).2.2.2
      CapEvent.auto (by decide)
  · exact (manual_timeout_asymmetry envAutoFail true true false).2.1 none

theorem get_set_manual_captcha_flag (store : ThreadStore) (t : Nat) (v : Bool) :
    get_manual_captcha_flag (set_manual_captcha_flag store t v) t = v := by
  simp [get_manual_captcha_flag, set_manual_captcha_flag]

/-- C3, claim as stated, is false on the code: the flag lives in
`threading.local()` module state, and `ThreadPoolExecutor` reuses worker
threads across submitted tasks (always so when there are more attorneys
than the worker cap, and whenever an earlier task finishes before a later
submit).  After one attorney's Workflow on thread 0 sets the flag, the
value `get_manual_captcha_flag` returns at the start of the next
attorney's Workflow scheduled on thread 0 is `true`, not `false`. -/
theorem manual_captcha_flag_leak_counterexample :
    get_manual_captcha_flag
      (runWorkflowCaptchas [envAutoFail] true true (fun _ => none) 0) 0
      = true := by
  decide

/-- C3 (amended): ManualCaptchaFlag is scoped to one worker *thread*: it
reads `false` on a fresh thread; it is set `true` when automated solving
fails (insufficient balance, solve failure, or exception); once `true` it
stays `true` through every later captcha resolution on that thread, so in
particular for the remainder of the attorney's Workflow; and a Workflow
running on thread `t` never changes the flag of any other thread.  The
flag's lifetime is the thread, not the task: a Workflow scheduled on a
reused thread observes its predecessor's flag. -/
theorem manual_captcha_flag_sticky (env : ResolveEnv) (svcEnv : CapSvcEnv)
    (u k : Bool) :
    (∀ t, get_manual_captcha_flag (fun _ => none) t = false) ∧
    (svcEnv.svcRaises = true →
      (solve_captcha_with_service svcEnv true false).2.1 = true) ∧
    (svcEnv.svcRaises = false → lowBalance svcEnv.balance = true →
      (solve_captcha_with_service svcEnv true false).2.1 = true) ∧
    (svcEnv.svcRaises = false → lowBalance svcEnv.balance = false →
      svcEnv.autoOk = false →
      (solve_captcha_with_service svcEnv true false).2.1 = true) ∧
    ((resolve_captcha env u k true).2.1 = true) ∧
    (∀ store t t', t' ≠ t →
      (resolveOnThread env u k store t).2 t' = store t') ∧
    (∀ envs store t, get_manual_captcha_flag store t = true →
      get_manual_captcha_flag
        (runWorkflowCaptchas envs u k store t) t = true) := by
  refine ⟨?_, ?_, ?_, ?_, resolve_captcha_flag_true env u k, ?_, ?_⟩
  · intro t
    rfl
  · intro h
    simp [solve_captcha_with_service, h]
  · intro h1 h2
    simp [solve_captcha_with_service, h1, h2]
  · intro h1 h2 h3
    simp [solve_captcha_with_service, h1, h2, h3]
  · intro store t t' h
    simp [resolveOnThread, set_manual_captcha_flag, h]
  · intro envs
    induction envs with
    | nil =>
      intro store t h
      exact h
    | cons e rest ih =>
      intro store t h
      have hcons : runWorkflowCaptchas (e :: rest) u k store t =
          runWorkflowCaptchas rest u k ((resolveOnThread e u k store t).2) t := rfl
      rw [hcons]
      apply ih
      show get_manual_captcha_flag
        (set_manual_captcha_flag store t
          (resolve_captcha e u k (get_manual_captcha_flag store t)).2.1) t = true
      rw [get_set_manual_captcha_flag, h]
      exact resolve_captcha_flag_true e u k

theorem manual_captcha_flag_sticky_witness :
    get_manual_captcha_flag (fun _ => none) 0 = false ∧
    (solve_captcha_with_service svcEnvFail true false).2.1 = true := by
  constructor
  · exact (manual_captcha_flag_sticky envAutoFail svcEnvFail true true).1 0
  · exact (manual_captcha_flag_sticky envAutoFail svcEnvFail true true).2.2.2.1
      rfl rfl rfl

/-! ## Bond-amount extraction (`case_data_extractor.extract_bond_amount`,
case_data_extractor.py 529-622)

The page is an oracle `BondPage`: the `td[role="gridcell"]` cells with
their ancestor-row texts, whether the `#settingInformationDiv` section
and the `#BondSettingsGrid` grid exist, whether the "Hold Without Bond"
div is present before, respectively after, expanding the bottom-most
setting row, the number of expand icons, and the
`div[style*="padding-left:30px"]` texts visible after expansion. -/

/-- `BOND_AMOUNT_DISQUALIFIERS` (case_data_extractor.py 14-35). -/
def BOND_AMOUNT_DISQUALIFIERS : List Str :=
  ["due", "owed", "balance", "paid", "fee", "fees", "financial",
    "assessment", "assessments", "transaction", "transactions", "credit",
    "credits", "payment", "payments", "total", "fine", "fines", "cost",
    "costs"].map String.toList

/-- `cell_text.startswith('$') and any(char.isdigit() for char in cell_text)`
on an already stripped text. -/
def isDollarText (t : Str) : Bool :=
  strStartsWith ['$'] t && t.any Char.isDigit

/-- `any(disqualifier in row_text for disqualifier in BOND_AMOUNT_DISQUALIFIERS)`
with `row_text` lower-cased (case_data_extractor.py 543-546). -/
def bondRowDisqualified (rowText : Str) : Bool :=
  BOND_AMOUNT_DISQUALIFIERS.any (fun w => strHasSub w (pyLower rowText))

/-- Oracle for one case page's bond-related DOM. -/
structure BondPage where
  gridcells : List (Str × Str)
  settingsPresent : Bool
  hwbPre : Bool
  gridPresent : Bool
  expandIconCount : Nat
  hwbPost : Bool
  amountDivs : List Str
deriving DecidableEq

/-- Step 1 of `extract_bond_amount`: the first gridcell whose stripped
text is a dollar amount and whose ancestor row has no disqualifier word. -/
def bondFromGridcells (cells : List (Str × Str)) : Option Str :=
  (cells.find? (fun cr =>
    isDollarText (pyStrip cr.1) && ! bondRowDisqualified cr.2)).map
    (fun cr => pyStrip cr.1)

/-- Step 4 of `extract_bond_amount`: the first expanded-settings div whose
stripped text is a dollar amount and does not start with "comment". -/
def bondFromAmountDivs (divs : List Str) : Option Str :=
  (divs.find? (fun t =>
    isDollarText (pyStrip t) &&
      ! strStartsWith "comment".toList (pyLower (pyStrip t)))).map pyStrip

/-- The literal returned when nothing is found. -/
def noBondStr : Str := "No bond amount set".toList

/-- The literal returned for the explicit hold-without-bond status. -/
def hwbStr : Str := "Hold Without Bond".toList

/-- `extract_bond_amount` (case_data_extractor.py 529-622). -/
def extract_bond_amount (p : BondPage) : Str :=
  match bondFromGridcells p.gridcells with
  | some v => v
  | none =>
    if ¬p.settingsPresent then noBondStr
    else if p.hwbPre then hwbStr
    else if ¬p.gridPresent then noBondStr
    else if p.expandIconCount = 0 then noBondStr
    else if p.hwbPost then hwbStr
    else
      match bondFromAmountDivs p.amountDivs with
      | some v => v
      | none => noBondStr

/-- The "Hold Without Bond" marker is present on the page: either in the
already-visible Bond Settings content, or in the content revealed by the
expansion the code performs (which only happens when the grid and at
least one expand icon exist). -/
def hwbMarkerPresent (p : BondPage) : Prop :=
  p.settingsPresent = true ∧
    (p.hwbPre = true ∨
      (p.gridPresent = true ∧ p.expandIconCount ≠ 0 ∧ p.hwbPost = true))

/-- C7: a dollar-prefixed cell in a disqualified row is never the one
selected by the gridcell scan (whatever is returned from the scan comes
from a non-disqualified row); with no acceptable dollar figure in either
source and no "Hold Without Bond" marker the result is exactly
"No bond amount set"; and when the marker is present (and the gridcell
scan found nothing) it is returned in preference to "No bond amount set". -/
theorem bond_amount_extraction (p : BondPage) :
    (∀ v, bondFromGridcells p.gridcells = some v →
      ∃ cr ∈ p.gridcells, v = pyStrip cr.1 ∧
        isDollarText (pyStrip cr.1) = true ∧
        bondRowDisqualified cr.2 = false) ∧
    (bondFromGridcells p.gridcells = none →
      bondFromAmountDivs p.amountDivs = none →
      ¬ hwbMarkerPresent p → extract_bond_amount p = noBondStr) ∧
    (hwbMarkerPresent p → bondFromGridcells p.gridcells = none →
      extract_bond_amount p = hwbStr) := by
  refine ⟨?_, ?_, ?_⟩
  · intro v hv
    unfold bondFromGridcells at hv
    cases hf : p.gridcells.find? (fun cr =>
        isDollarText (pyStrip cr.1) && ! bondRowDisqualified cr.2) with
    | none => rw [hf] at hv; simp at hv
    | some cr =>
      rw [hf, Option.map_some'] at hv
      injection hv with hv
      have hmem := List.mem_of_find?_eq_some hf
      have hpred := List.find?_some hf
      simp only [Bool.and_eq_true, Bool.not_eq_true'] at hpred
      exact ⟨cr, hmem, hv.symm, hpred.1, hpred.2⟩
  · intro hcells hdivs hmark
    unfold extract_bond_amount
    rw [hcells]
    by_cases hset : p.settingsPresent
    · rw [if_neg (by simpa using hset)]
      have hpre : p.hwbPre = false := by
        by_contra hp
        exact hmark ⟨by simpa using hset, Or.inl (by simpa using hp)⟩
      rw [hpre, if_neg (by simp)]
      by_cases hgrid : p.gridPresent
      · rw [if_neg (by simpa using hgrid)]
        by_cases hicon : p.expandIconCount = 0
        · rw [if_pos hicon]
        · rw [if_neg hicon]
          have hpost : p.hwbPost = false := by
            by_contra hp
            exact hmark ⟨by simpa using hset,
              Or.inr ⟨by simpa using hgrid, hicon, by simpa using hp⟩⟩
          rw [hpost, if_neg (by simp), hdivs]
      · rw [if_pos (by simpa using hgrid)]
    · rw [if_pos (by simpa using hset)]
  · intro hmark hcells
    unfold extract_bond_amount
    rw [hcells]
    obtain ⟨hset, hrest⟩ := hmark
    rw [hset, if_neg (by simp)]
    rcases hrest with hpre | ⟨hgrid, hicon, hpost⟩
    · rw [hpre, if_pos rfl]
    · by_cases hpre : p.hwbPre
      · rw [if_pos hpre]
      · rw [if_neg hpre, hgrid, if_neg (by simp), if_neg hicon, hpost,
          if_pos rfl]

/-- A bond page whose only dollar figure sits in a row containing the
disqualifier "fee", with no Bond Settings section. -/
def bondPageW : BondPage :=
  { gridcells := [("$250 ".toList, "Fee Due".toList)]
    settingsPresent := false, hwbPre := false, gridPresent := false
    expandIconCount := 0, hwbPost := false, amountDivs := [] }

theorem bond_amount_extraction_witness :
    extract_bond_amount bondPageW = noBondStr :=
  (bond_amount_extraction bondPageW).2.1 (by decide) (by decide)
    (by intro h; simp [hwbMarkerPresent, bondPageW] at h)

/-! ## Case-detail extraction (`case_data_extractor.extract_case_details`,
case_data_extractor.py 177-309)

Each field's DOM lookup (the `extract_value_from_lines ... or
extract_value_by_selectors ...` cascade) is an oracle text in
`DetailPage`; the bond amount is computed by the `extract_bond_amount`
model above; `dispositionText` and `sentencingText` are what
`extract_disposition_and_sentencing` would return (the disposition-events
grid text and the " || "-joined confinement/probation summary). -/

/-- Oracle for one loaded case-detail page. -/
structure DetailPage where
  caseNumberText : Str
  fileDateText : Str
  judicialOfficerText : Str
  caseStatusText : Str
  caseTypeText : Str
  chargeText : Str
  bond : BondPage
  dispositionText : Str
  sentencingText : Str
deriving DecidableEq

/-- `record_field_extraction` / `ensure_field_extracted`
(case_data_extractor.py 44-62): strip the value; keep it when non-empty;
otherwise record the label as a missing-field error when required. -/
def record_field_extraction (label : Str) (value : Str)
    (field_errors : List Str) (required : Bool) : Str × List Str :=
  let v := pyStrip value
  if v ≠ [] then (v, field_errors)
  else if required then ([], field_errors ++ [label])
  else ([], field_errors)

theorem record_field_extraction_fst (label value : Str)
    (field_errors : List Str) (required : Bool) :
    (record_field_extraction label value field_errors required).1 =
      pyStrip value := by
  unfold record_field_extraction
  by_cases h : pyStrip value ≠ []
  · rw [if_pos h]
  · rw [if_neg h]
    push_neg at h
    by_cases hreq : required
    · rw [if_pos hreq]
      exact h.symm
    · rw [if_neg hreq]
      exact h.symm

/-- `extract_case_details` (case_data_extractor.py 177-309).  Returns the
record (attorney fields still empty — `process_case_details` fills them),
whether disposition/sentencing extraction was attempted, and the
missing-field error list. -/
def extract_case_details (p : DetailPage) : CaseRecord × Bool × List Str :=
  let f1 := record_field_extraction "Case Number".toList p.caseNumberText [] true
  let f2 := record_field_extraction "File Date".toList p.fileDateText f1.2 true
  let f3 := record_field_extraction "Judicial Officer".toList
    p.judicialOfficerText f2.2 true
  let f4 := record_field_extraction "Case Status".toList p.caseStatusText f3.2 true
  let f5 := record_field_extraction "Case Type".toList p.caseTypeText f4.2 false
  let f6 := record_field_extraction "Charge Description".toList p.chargeText
    f5.2 true
  let f7 := record_field_extraction "Bond Amount".toList
    (extract_bond_amount p.bond) f6.2 true
  let disp : Str × Str × Bool :=
    if pyUpper (pyStrip f4.1) = "ACTIVE".toList ∨
        pyUpper (pyStrip f4.1) = "OPEN".toList then
      ("NA".toList, "NA".toList, false)
    else
      ((if p.dispositionText = [] then "NA".toList else p.dispositionText),
        (if p.sentencingText = [] then "NA".toList else p.sentencingText),
        true)
  let f8 := record_field_extraction "Disposition".toList disp.1 f7.2 false
  let f9 := record_field_extraction "Disposition / Sentencing".toList
    disp.2.1 f8.2 false
  ({ case_number := f1.1
     file_date := f2.1
     judicial_officer := f3.1
     case_status := f4.1
     case_type := f5.1
     charge_description := f6.1
     bond_amount := f7.1
     disposition := f8.1
     sentencing_info := f9.1
     attorney_name := []
     attorney_first_name := []
     attorney_last_name := [] },
    disp.2.2, f9.2)

/-- C6: when the extracted case status, normalised exactly as the code
does (`.strip().upper()`), is "ACTIVE" or "OPEN", the record's
disposition and sentencing_info are the sentinel "NA" and
disposition/sentencing extraction is not attempted; for every other
status the extraction is attempted and "NA" is substituted in a field
exactly when that field's extraction yields an empty value. -/
theorem disposition_short_circuit (p : DetailPage) :
    (pyUpper (pyStrip (extract_case_details p).1.case_status) = "ACTIVE".toList ∨
      pyUpper (pyStrip (extract_case_details p).1.case_status) = "OPEN".toList →
      (extract_case_details p).1.disposition = "NA".toList ∧
      (extract_case_details p).1.sentencing_info = "NA".toList ∧
      (extract_case_details p).2.1 = false) ∧
    (pyUpper (pyStrip (extract_case_details p).1.case_status) ≠ "ACTIVE".toList →
      pyUpper (pyStrip (extract_case_details p).1.case_status) ≠ "OPEN".toList →
      (extract_case_details p).2.1 = true ∧
      (extract_case_details p).1.disposition =
        pyStrip (if p.dispositionText = [] then "NA".toList
          else p.dispositionText) ∧
      (extract_case_details p).1.sentencing_info =
        pyStrip (if p.sentencingText = [] then "NA".toList
          else p.sentencingText)) := by
  constructor
  · intro h
    unfold extract_case_details at h ⊢
    dsimp only at h ⊢
    rw [if_pos h]
    refine ⟨?_, ?_, rfl⟩ <;> · rw [record_field_extraction_fst]; decide
  · intro h1 h2
    unfold extract_case_details at h1 h2 ⊢
    dsimp only at h1 h2 ⊢
    rw [if_neg (by tauto)]
    exact ⟨rfl, by rw [record_field_extraction_fst],
      by rw [record_field_extraction_fst]⟩

/-- A detail page whose case status reads " Active " (normalising to
"ACTIVE"). -/
def detailPageActive : DetailPage :=
  { caseNumberText := "F-2024-1".toList
    fileDateText := "1/2/2025".toList
    judicialOfficerText := "J".toList
    caseStatusText := " Active ".toList
    caseTypeText := "FELONY".toList
    chargeText := "ASSAULT".toList
    bond := bondPageW
    dispositionText := "GUILTY".toList
    sentencingText := [] }

theorem disposition_short_circuit_witness :
    (extract_case_details detailPageActive).1.disposition = "NA".toList ∧
    (extract_case_details detailPageActive).1.sentencing_info = "NA".toList ∧
    (extract_case_details detailPageActive).2.1 = false :=
  (disposition_short_circuit detailPageActive).1 (by decide)

/-! ## Worker pool and session resources (`scraper_pool.py`, with the
session lifecycle of `DallasCountyScraper.__init__`, `cleanup` and
`recover_session`)

Browser sessions are modelled by an id allocator: `setup_browser`
allocates a fresh session id and makes it current — overwriting
`self.playwright/browser/context/page` without closing the previous
objects, exactly as the assignments at scraper.py 753 do — and `cleanup`
(scraper.py 867-896) closes the current session only. -/

/-- Allocator state for browser sessions: ids handed out, ids still open,
and the session the scraper's fields currently reference. -/
structure SessState where
  nextId : Nat
  openIds : List Nat
  current : Option Nat
deriving DecidableEq, Repr

/-- `DallasCountyScraper.cleanup`: closes the currently referenced
session (idempotent). -/
def cleanup (s : SessState) : SessState :=
  match s.current with
  | none => s
  | some id => { s with openIds := s.openIds.erase id, current := none }

/-- `utils.setup_browser` as used by the scraper: a fresh session is
created and assigned to the scraper's fields; the previously referenced
session, if any, is not closed. -/
def setup_browser (s : SessState) : SessState :=
  { nextId := s.nextId + 1
    openIds := s.nextId :: s.openIds
    current := some s.nextId }

/-- Oracle for one recovery attempt's sub-step outcomes
(scraper.py 744-805). -/
structure RecoveryAttempt where
  setupOk : Bool
  navOk : Bool
  selectOk : Bool
  fillOk : Bool
  captchaOk : Bool
  submitOk : Bool
deriving DecidableEq, Repr

/-- All gated sub-steps of a recovery attempt succeeded. -/
def attemptAllOk (a : RecoveryAttempt) : Bool :=
  a.navOk && a.selectOk && a.fillOk && a.captchaOk && a.submitOk

/-- The retry loop of `recover_session` (scraper.py 744-805): each
attempt reinitialises the browser (when that succeeds) and replays the
session-establishment sequence; on any sub-step failure the whole
sequence is retried.  `attempts` carries one oracle per loop iteration
(`max_retries = 6` in the code). -/
def recover_session_go : List RecoveryAttempt → SessState → Bool × SessState
  | [], s => (false, s)
  | a :: rest, s =>
    if ¬a.setupOk then recover_session_go rest s
    else
      let s' := setup_browser s
      if attemptAllOk a then (true, s')
      else recover_session_go rest s'

/-- `DallasCountyScraper.recover_session` (scraper.py 739-808): cleanup
once before the retry loop, then the loop. -/
def recover_session (attempts : List RecoveryAttempt) (s : SessState) :
    Bool × SessState :=
  recover_session_go attempts (cleanup s)

/-- An attorney entry as validated by `scrape_attorney_worker`
(scraper_pool.py 27-49): `none` models a missing dict key. -/
structure AttorneyEntry where
  first_name : Option Str
  last_name : Option Str
deriving DecidableEq

/-- The validation of scraper_pool.py 31-49: both keys present with
non-empty values. -/
def validAttorney (a : AttorneyEntry) : Bool :=
  match a.first_name, a.last_name with
  | some f, some l => !f.isEmpty && !l.isEmpty
  | _, _ => false

/-- Oracle for what one attorney's scraper does. -/
structure WorkerEnv where
  ctorOk : Bool
  runRaises : Bool
  runOk : Bool
  results : List CaseRecord
deriving DecidableEq

/-- The tuple `(attorney_index, results, success, error)` returned by
`scrape_attorney_worker`, plus whether the `finally` block ran
`scraper.cleanup()` (it does not when the constructor raised, because
`scraper` is still `None`). -/
structure WorkerResult where
  idx : Nat
  results : List CaseRecord
  success : Bool
  errored : Bool
  cleanupRan : Bool
deriving DecidableEq

/-- `scrape_attorney_worker` (scraper_pool.py 27-83): every failure mode
is converted into a returned tuple; nothing propagates to the pool. -/
def scrape_attorney_worker (a : AttorneyEntry) (idx : Nat)
    (env : WorkerEnv) : WorkerResult :=
  if ¬validAttorney a then ⟨idx, [], false, true, false⟩
  else if ¬env.ctorOk then ⟨idx, [], false, true, false⟩
  else if env.runRaises then ⟨idx, [], false, true, true⟩
  else if env.runOk then ⟨idx, env.results, true, false, true⟩
  else ⟨idx, [], false, false, true⟩

/-- `run_all_attorneys_concurrent` (scraper_pool.py 92-166): dispatch one
worker per attorney and extend a shared list with each non-empty result
list under a lock; the aggregate is returned, never an exception.  The
mutex-protected merge makes the aggregate a permutation of the
index-ordered concatenation; the model fixes index order. -/
def run_all_attorneys_concurrent (attorneys : List AttorneyEntry)
    (envs : Nat → WorkerEnv) : List CaseRecord :=
  if attorneys.isEmpty then []
  else
    (attorneys.enum.map (fun q =>
      (scrape_attorney_worker q.2 q.1 (envs q.1)).results)).foldl
      (fun acc rs => acc ++ rs) []

theorem foldl_append_eq_flatten (L : List (List CaseRecord)) :
    ∀ acc, L.foldl (fun acc rs => acc ++ rs) acc = acc ++ L.flatten := by
  induction L with
  | nil => intro acc; simp
  | cons l ls ih =>
    intro acc
    simp only [List.foldl_cons, List.flatten_cons, ih, List.append_assoc]

theorem sublist_flatten_of_mem {l : List CaseRecord}
    {L : List (List CaseRecord)} (h : l ∈ L) : l.Sublist L.flatten := by
  induction L with
  | nil => simp at h
  | cons x xs ih =>
    rcases List.mem_cons.mp h with rfl | h
    · simp only [List.flatten_cons]
      exact List.sublist_append_left l xs.flatten
    · simp only [List.flatten_cons]
      exact (ih h).trans (List.sublist_append_right x xs.flatten)

/-- A recovery attempt that reinitialises the browser but fails at
navigation. -/
def attemptFail : RecoveryAttempt := ⟨true, false, true, true, true, true⟩

/-- A fully successful recovery attempt. -/
def attemptOk : RecoveryAttempt := ⟨true, true, true, true, true, true⟩

/-- C8, claim as stated, is false on the code: `recover_session` runs
`cleanup` once before its retry loop, but each retry calls
`setup_browser` again, overwriting the scraper's session fields without
closing the previous attempt's browser (scraper.py 742, 753).  After a
failed attempt followed by a successful one, the worker's final
`cleanup` closes only the last session: the failed attempt's session
(id 1 here) is never released on this successful exit path. -/
theorem session_release_counterexample :
    (recover_session [attemptFail, attemptOk]
      (setup_browser ⟨0, [], none⟩)).1 = true ∧
    (cleanup (recover_session [attemptFail, attemptOk]
      (setup_browser ⟨0, [], none⟩)).2).openIds = [1] := by
  decide

/-- C8 (amended): `run_all_attorneys_concurrent` is total and returns the
concatenation of all workers' result lists; an invalid attorney entry
becomes a per-attorney failure tuple and every worker's results still
appear in the aggregate (one worker cannot block another's contribution);
the worker's `finally` releases the scraper's *current* session on every
exit path after construction; but sessions created by recovery attempts
that fail after browser setup are replaced without being closed — the
failed attempt's session id stays open even after the final cleanup. -/
theorem coordinator_isolation_and_release (attorneys : List AttorneyEntry)
    (envs : Nat → WorkerEnv) (a : AttorneyEntry) (idx : Nat)
    (env : WorkerEnv) (s : SessState) (a1 a2 : RecoveryAttempt) :
    (validAttorney a = false →
      scrape_attorney_worker a idx env = ⟨idx, [], false, true, false⟩) ∧
    (attorneys ≠ [] →
      run_all_attorneys_concurrent attorneys envs =
        (attorneys.enum.map (fun q =>
          (scrape_attorney_worker q.2 q.1 (envs q.1)).results)).flatten) ∧
    (∀ q ∈ attorneys.enum, attorneys ≠ [] →
      ((scrape_attorney_worker q.2 q.1 (envs q.1)).results).Sublist
        (run_all_attorneys_concurrent attorneys envs)) ∧
    (validAttorney a = true → env.ctorOk = true →
      (scrape_attorney_worker a idx env).cleanupRan = true) ∧
    (a1.setupOk = true → attemptAllOk a1 = false →
      a2.setupOk = true → attemptAllOk a2 = true →
      (recover_session [a1, a2] s).1 = true ∧
      (cleanup (recover_session [a1, a2] s).2).openIds =
        (cleanup s).nextId :: (cleanup s).openIds) := by
  have hflat : attorneys ≠ [] →
      run_all_attorneys_concurrent attorneys envs =
        (attorneys.enum.map (fun q =>
          (scrape_attorney_worker q.2 q.1 (envs q.1)).results)).flatten := by
    intro h
    unfold run_all_attorneys_concurrent
    rw [if_neg (by simpa using h)]
    rw [foldl_append_eq_flatten]
    simp
  refine ⟨?_, hflat, ?_, ?_, ?_⟩
  · intro h
    simp [scrape_attorney_worker, h]
  · intro q hq h
    rw [hflat h]
    exact sublist_flatten_of_mem (List.mem_map_of_mem _ hq)
  · intro h1 h2
    cases hr : env.runRaises <;> cases ho : env.runOk <;>
      simp [scrape_attorney_worker, h1, h2, hr, ho]
  · intro h1 h2 h3 h4
    have hgo : recover_session_go [a1, a2] (cleanup s) =
        (true, setup_browser (setup_browser (cleanup s))) := by
      unfold recover_session_go
      rw [if_neg (by simp [h1])]
      dsimp only
      rw [if_neg (by simp [h2])]
      unfold recover_session_go
      rw [if_neg (by simp [h3])]
      dsimp only
      rw [if_pos (by simp [h4])]
    unfold recover_session
    rw [hgo]
    constructor
    · rfl
    · show (cleanup (setup_browser (setup_browser (cleanup s)))).openIds = _
      unfold cleanup setup_browser
      dsimp only
      rw [List.erase_cons_head]

/-- A trivial worker environment for witness instantiation. -/
def envIdle : WorkerEnv :=
  { ctorOk := true, runRaises := false, runOk := false, results := [] }

theorem coordinator_isolation_and_release_witness :
    scrape_attorney_worker ⟨some [], some "DOE".toList⟩ 0 envIdle =
      ⟨0, [], false, true, false⟩ ∧
    (recover_session [attemptFail, attemptOk] ⟨5, [3], some 3⟩).1 = true := by
  have h := coordinator_isolation_and_release [] (fun _ => envIdle)
    ⟨some [], some "DOE".toList⟩ 0 envIdle ⟨5, [3], some 3⟩
    attemptFail attemptOk
  exact ⟨h.1 (by decide), (h.2.2.2.2 rfl (by decide) rfl (by decide)).1⟩

/-! ## Result export (`result_exporter.py`)

`export_results` builds a DataFrame, renames the columns to display
titles, then re-orders it to the ten columns of `column_order`
(result_exporter.py 48-63) — "Attorney First Name" and
"Attorney Last Name" are not in `column_order`, so they are dropped.
`export_csv`, `export_json` and `export_excel` all serialize this same
ten-column table, so the file content is modelled as the header row plus
one row of cell values per record. -/

/-- The ten columns kept by `column_order` (result_exporter.py 48-59),
with the display titles of `column_titles`. -/
def exportHeader : List Str :=
  ["Attorney", "Case Number", "File Date", "Judicial Officer",
    "Case Status", "Case Type", "Charge Description", "Bond Amount",
    "Disposition", "Sentencing"].map String.toList

/-- One record's exported cells, in `column_order` order. -/
def export_row (r : CaseRecord) : List Str :=
  [r.attorney_name, r.case_number, r.file_date, r.judicial_officer,
    r.case_status, r.case_type, r.charge_description, r.bond_amount,
    r.disposition, r.sentencing_info]

/-- `export_results` (result_exporter.py 19-89): nothing is written when
the result list is empty; otherwise the ten-column table is produced. -/
def export_results (results : List CaseRecord) :
    Option (List Str × List (List Str)) :=
  if results.isEmpty then none
  else some (exportHeader, results.map export_row)

/-- Modelled from the spec: the repository has no reloading code; spec §8
("exporting N CaseRecords and reloading must yield N records with
identical field values") presumes reading the produced records file back.
Reloading yields one mapping per exported row, keyed by column title. -/
def reload_export (file : List Str × List (List Str)) :
    List (List (Str × Str)) :=
  file.2.map (fun row => file.1.zip row)

/-- Look a column up in a reloaded record. -/
def colValue (row : List (Str × Str)) (c : Str) : Option Str :=
  (row.find? (fun q => q.1 = c)).map (fun q => q.2)

/-- `recA` with a different attorney first name. -/
def recB : CaseRecord := { recA with attorney_first_name := "JOHN".toList }

/-- C9, claim as stated, is false on the code: the column re-ordering
drops `attorney_first_name` and `attorney_last_name`, so two distinct
record lists produce identical files for every supported format — no
reload can yield records whose field values are identical to the
originals. -/
theorem export_round_trip_counterexample :
    recA ≠ recB ∧ export_results [recA] = export_results [recB] := by
  constructor
  · decide
  · decide

/-- C9 (amended): for every nonempty list of N records, the exported
table has exactly N rows and reloading yields N records whose values on
the ten exported columns equal the corresponding fields of the original
records; the `attorney_first_name` and `attorney_last_name` fields are
not present in the file. -/
theorem export_round_trip (results : List CaseRecord) (h : results ≠ []) :
    export_results results = some (exportHeader, results.map export_row) ∧
    (results.map export_row).length = results.length ∧
    reload_export (exportHeader, results.map export_row) =
      results.map (fun r => exportHeader.zip (export_row r)) ∧
    ∀ r ∈ results,
      colValue (exportHeader.zip (export_row r)) "Attorney".toList =
        some r.attorney_name ∧
      colValue (exportHeader.zip (export_row r)) "Case Number".toList =
        some r.case_number ∧
      colValue (exportHeader.zip (export_row r)) "File Date".toList =
        some r.file_date ∧
      colValue (exportHeader.zip (export_row r)) "Judicial Officer".toList =
        some r.judicial_officer ∧
      colValue (exportHeader.zip (export_row r)) "Case Status".toList =
        some r.case_status ∧
      colValue (exportHeader.zip (export_row r)) "Case Type".toList =
        some r.case_type ∧
      colValue (exportHeader.zip (export_row r)) "Charge Description".toList =
        some r.charge_description ∧
      colValue (exportHeader.zip (export_row r)) "Bond Amount".toList =
        some r.bond_amount ∧
      colValue (exportHeader.zip (export_row r)) "Disposition".toList =
        some r.disposition ∧
      colValue (exportHeader.zip (export_row r)) "Sentencing".toList =
        some r.sentencing_info ∧
      colValue (exportHeader.zip (export_row r))
        "Attorney First Name".toList = none ∧
      colValue (exportHeader.zip (export_row r))
        "Attorney Last Name".toList = none := by
  refine ⟨?_, by simp, ?_, ?_⟩
  · unfold export_results
    rw [if_neg (by simpa using h)]
  · unfold reload_export
    simp
  · intro r hr
    exact ⟨rfl, rfl, rfl, rfl, rfl, rfl, rfl, rfl, rfl, rfl, rfl, rfl⟩

theorem export_round_trip_witness :
    colValue (exportHeader.zip (export_row recA)) "Case Number".toList =
      some recA.case_number ∧
    colValue (exportHeader.zip (export_row recA))
      "Attorney First Name".toList = none := by
  have h := (export_round_trip [recA] (by simp)).2.2.2 recA (by simp)
  exact ⟨h.2.1, h.2.2.2.2.2.2.2.2.2.2.1⟩
